import Mathlib

/-!
Shallow embedding of the chronostream Solana program
(src/program/src/state.rs, src/program/src/processor.rs).

Modelling conventions:
  * a byte is `Fin 256`; a `Pubkey` is its 32 raw bytes (`List Byte`);
  * `i64` values are `Int` with explicit two-complement wrapping
    (`wrapI64`) where the Rust release-mode arithmetic wraps, and the
    `as u64` cast is `i64ToU64` (reduction modulo 2 ^ 64);
  * `u64` values are `Nat` (every value produced by the code is < 2 ^ 64);
  * borsh `try_from_slice` / `serialize` are modelled byte-exactly:
    `try_from_slice` consumes the whole slice and fails on a short or
    over-long buffer; `serialize` into a mutable slice writes as many
    bytes as fit and fails (after the partial write) when the slice is
    too small, mirroring the `std::io::Write` impl for `&mut [u8]`;
  * the clock sysvar is an `Option Int` argument (`none` models a failing
    `Clock::get()`, which surfaces as `UnsupportedSysvar` - the error the
    spec calls `ClockUnavailable`);
  * an invocation returns an `Outcome`: the `ProgramResult` together with
    the post-call account list (only the stream account data can change).
-/

namespace ChronoStream

abbrev Byte := Fin 256

abbrev Pubkey := List Byte

/-- Little-endian decoding of a byte list to a natural number. -/
def leToNat : List Byte → Nat
  | [] => 0
  | b :: bs => b.val + 256 * leToNat bs

/-- Little-endian encoding of a natural number into `k` bytes (mod 256 ^ k). -/
def natToLe : Nat → Nat → List Byte
  | 0, _ => []
  | k + 1, n => ⟨n % 256, Nat.mod_lt _ (by decide)⟩ :: natToLe k (n / 256)

/-- The `x as u64` cast applied to an `i64` value: reduction modulo 2 ^ 64. -/
def i64ToU64 (i : Int) : Nat := (i % (2 ^ 64 : Int)).toNat

/-- Reading a `u64` bit pattern as an `i64` (two-complement). -/
def u64ToI64 (n : Nat) : Int :=
  if n < 2 ^ 63 then (n : Int) else (n : Int) - 2 ^ 64

/-- Wrapping of an integer into the `i64` range, the release-mode semantics
of Rust `i64` arithmetic. -/
def wrapI64 (i : Int) : Int := (i + 2 ^ 63) % 2 ^ 64 - 2 ^ 63

/-- `StreamConfig` from src/program/src/state.rs. -/
structure StreamConfig where
  sender : Pubkey
  receiver : Pubkey
  flow_rate : Int
  static_balance : Nat
  start_time : Int
deriving DecidableEq

/-- `StreamInstruction` from src/program/src/state.rs. -/
inductive StreamInstruction where
  | Initialize (flow_rate : Int) (initial_balance : Nat)
  | Terminate
deriving DecidableEq

/-- `StreamConfig::initialize` from src/program/src/state.rs. -/
def StreamConfig.initialize (sender receiver : Pubkey) (flow_rate : Int)
    (initial_balance : Nat) (start_time : Int) : StreamConfig :=
  { sender := sender
    receiver := receiver
    flow_rate := flow_rate
    static_balance := initial_balance
    start_time := start_time }

/-- borsh io-error text for a buffer that is too short. -/
def eofMsg : String := "Unexpected length of input"

/-- borsh io-error text of `try_from_slice` when bytes remain unread. -/
def leftoverMsg : String := "Not all bytes read"

/-- borsh io-error text for an unknown enum tag. -/
def tagMsg : String := "Unexpected variant tag"

/-- io-error text of a write into a slice that is too small. -/
def writeZeroMsg : String := "failed to write whole buffer"

/-- borsh serialization of `StreamConfig`:
`sender(32) | receiver(32) | flow_rate(i64 LE) | static_balance(u64 LE) | start_time(i64 LE)`. -/
def StreamConfig.serializeBytes (c : StreamConfig) : List Byte :=
  c.sender ++ c.receiver ++ natToLe 8 (i64ToU64 c.flow_rate) ++
    natToLe 8 c.static_balance ++ natToLe 8 (i64ToU64 c.start_time)

/-- borsh `StreamConfig::try_from_slice`: reads the five fields (88 bytes)
and requires that the whole slice is consumed. -/
def StreamConfig.tryFromSlice (bs : List Byte) : Except String StreamConfig :=
  if bs.length < 88 then .error eofMsg
  else if 88 < bs.length then .error leftoverMsg
  else .ok
    { sender := bs.take 32
      receiver := (bs.drop 32).take 32
      flow_rate := u64ToI64 (leToNat ((bs.drop 64).take 8))
      static_balance := leToNat ((bs.drop 72).take 8)
      start_time := u64ToI64 (leToNat ((bs.drop 80).take 8)) }

/-- borsh `StreamInstruction::try_from_slice`: a 1-byte tag, tag 0 followed
by an i64 and a u64 (16 more bytes), tag 1 by nothing; the whole slice must
be consumed. -/
def StreamInstruction.tryFromSlice : List Byte → Except String StreamInstruction
  | [] => .error eofMsg
  | tag :: rest =>
    if tag.val = 0 then
      if rest.length < 16 then .error eofMsg
      else if 16 < rest.length then .error leftoverMsg
      else .ok (.Initialize (u64ToI64 (leToNat (rest.take 8))) (leToNat (rest.drop 8)))
    else if tag.val = 1 then
      match rest with
      | [] => .ok .Terminate
      | _ :: _ => .error leftoverMsg
    else .error tagMsg

/-- The borsh `serialize` of a value into a mutable byte slice: writes as
many bytes as fit; succeeds iff the payload fits. On failure the prefix of
the buffer has still been overwritten (the `&mut [u8]` writer semantics). -/
def writeToSlice (payload buf : List Byte) : List Byte × Bool :=
  if payload.length ≤ buf.length then (payload ++ buf.drop payload.length, true)
  else (payload.take buf.length, false)

/-- The slice of `solana_program::account_info::AccountInfo` the program
reads: key, signer flag, owner and data buffer. -/
structure AccountInfo where
  key : Pubkey
  is_signer : Bool
  owner : Pubkey
  data : List Byte
deriving DecidableEq

/-- `solana_program::program_error::ProgramError`, restricted to the
variants this program can produce. The spec taxonomy maps onto it as:
IncorrectOwner = `IncorrectProgramId`, MissingSignature =
`MissingRequiredSignature`, MalformedInstruction and MalformedRecord =
`BorshIoError` with a decode message, ClockUnavailable =
`UnsupportedSysvar`. -/
inductive ProgramError where
  | IncorrectProgramId
  | MissingRequiredSignature
  | NotEnoughAccountKeys
  | UnsupportedSysvar
  | BorshIoError (msg : String)
deriving DecidableEq

/-- Decidable equality for `Except`, used to evaluate concrete runs. -/
def exceptDecEq {ε α : Type} [DecidableEq ε] [DecidableEq α] :
    DecidableEq (Except ε α) := fun a b =>
  match a, b with
  | .error x, .error y =>
    if h : x = y then .isTrue (by rw [h]) else .isFalse (fun hc => h (Except.error.inj hc))
  | .ok x, .ok y =>
    if h : x = y then .isTrue (by rw [h]) else .isFalse (fun hc => h (Except.ok.inj hc))
  | .error _, .ok _ => .isFalse (fun hc => Except.noConfusion hc)
  | .ok _, .error _ => .isFalse (fun hc => Except.noConfusion hc)

instance {ε α : Type} [DecidableEq ε] [DecidableEq α] : DecidableEq (Except ε α) :=
  exceptDecEq

/-- Result of one invocation: the `ProgramResult` plus the post-call
account list (the only mutation the program performs is writing the
stream account data). -/
structure Outcome where
  result : Except ProgramError Unit
  accounts : List AccountInfo

/-- The `amount_streamed` computation of `process_terminate`
(src/program/src/processor.rs lines 98-100): wrapping i64 subtraction and
multiplication, then the `as u64` cast. -/
def streamedAmount (stream : StreamConfig) (current_time : Int) : Nat :=
  i64ToU64 (wrapI64 (wrapI64 (current_time - stream.start_time) * stream.flow_rate))

/-- The balance update of `process_terminate`
(src/program/src/processor.rs lines 103-107). -/
def terminateBalance (stream : StreamConfig) (current_time : Int) : Nat :=
  if streamedAmount stream current_time > stream.static_balance then 0
  else stream.static_balance - streamedAmount stream current_time

/-- The authorization condition of `process_terminate`
(src/program/src/processor.rs lines 91-95). -/
def terminateAuthorized (stream : StreamConfig) (sender receiver : AccountInfo) : Prop :=
  (sender.is_signer ∧ stream.sender = sender.key) ∨
    (receiver.is_signer ∧ stream.receiver = receiver.key)

instance (stream : StreamConfig) (sender receiver : AccountInfo) :
    Decidable (terminateAuthorized stream sender receiver) := by
  unfold terminateAuthorized; infer_instance

/-- ` process_initialize` from src/program/src/processor.rs. -/
def process_initialize (program_id : Pubkey) (accounts : List AccountInfo)
    (flow_rate : Int) (initial_balance : Nat) (clock : Option Int) : Outcome :=
  match accounts with
  | stream_account :: sender :: receiver :: rest =>
    if stream_account.owner ≠ program_id then
      ⟨.error .IncorrectProgramId, stream_account :: sender :: receiver :: rest⟩
    else if ¬ sender.is_signer then
      ⟨.error .MissingRequiredSignature, stream_account :: sender :: receiver :: rest⟩
    else
      match clock with
      | none => ⟨.error .UnsupportedSysvar, stream_account :: sender :: receiver :: rest⟩
      | some start_time =>
        let stream := StreamConfig.initialize sender.key receiver.key
          flow_rate initial_balance start_time
        let w := writeToSlice stream.serializeBytes stream_account.data
        let accounts' := { stream_account with data := w.1 } :: sender :: receiver :: rest
        if w.2 then ⟨.ok (), accounts'⟩
        else ⟨.error (.BorshIoError writeZeroMsg), accounts'⟩
  | other => ⟨.error .NotEnoughAccountKeys, other⟩

/-- `process_terminate` from src/program/src/processor.rs. -/
def process_terminate (program_id : Pubkey) (accounts : List AccountInfo)
    (clock : Option Int) : Outcome :=
  match accounts with
  | stream_account :: sender :: receiver :: rest =>
    if stream_account.owner ≠ program_id then
      ⟨.error .IncorrectProgramId, stream_account :: sender :: receiver :: rest⟩
    else
      match StreamConfig.tryFromSlice stream_account.data with
      | .error msg => ⟨.error (.BorshIoError msg), stream_account :: sender :: receiver :: rest⟩
      | .ok stream =>
        if ¬ terminateAuthorized stream sender receiver then
          ⟨.error .MissingRequiredSignature, stream_account :: sender :: receiver :: rest⟩
        else
          match clock with
          | none => ⟨.error .UnsupportedSysvar, stream_account :: sender :: receiver :: rest⟩
          | some current_time =>
            let stream' := { stream with static_balance := terminateBalance stream current_time }
            let w := writeToSlice stream'.serializeBytes stream_account.data
            let accounts' := { stream_account with data := w.1 } :: sender :: receiver :: rest
            if w.2 then ⟨.ok (), accounts'⟩
            else ⟨.error (.BorshIoError writeZeroMsg), accounts'⟩
  | other => ⟨.error .NotEnoughAccountKeys, other⟩

/-- `process_instruction` from src/program/src/processor.rs. -/
def process_instruction (program_id : Pubkey) (accounts : List AccountInfo)
    (instruction_data : List Byte) (clock : Option Int) : Outcome :=
  match StreamInstruction.tryFromSlice instruction_data with
  | .error msg => ⟨.error (.BorshIoError msg), accounts⟩
  | .ok (.Initialize flow_rate initial_balance) =>
    process_initialize program_id accounts flow_rate initial_balance clock
  | .ok .Terminate => process_terminate program_id accounts clock

/-! ### Concrete fixtures used to instantiate the theorems -/

/-- A concrete program id. -/
def pkProg : Pubkey := List.replicate 32 (7 : Byte)

/-- A concrete sender identity. -/
def pkSend : Pubkey := List.replicate 32 (1 : Byte)

/-- A concrete receiver identity. -/
def pkRecv : Pubkey := List.replicate 32 (2 : Byte)

/-- A stream record as in Scenario C of the spec: flow rate 1,
balance 100, started at time 0. -/
def cfgC : StreamConfig := ⟨pkSend, pkRecv, 1, 100, 0⟩

/-- A stream record with a negative flow rate. -/
def cfgNeg : StreamConfig := ⟨pkSend, pkRecv, -3, 100, 0⟩

/-- The stream account holding the Scenario C record, owned by the program. -/
def acctStreamC : AccountInfo := ⟨List.replicate 32 (9 : Byte), false, pkProg, cfgC.serializeBytes⟩

/-- The stream account holding the negative-flow record. -/
def acctStreamNeg : AccountInfo := ⟨List.replicate 32 (9 : Byte), false, pkProg, cfgNeg.serializeBytes⟩

/-- A never-initialized stream account: 88 zero bytes. -/
def acctStreamZero : AccountInfo := ⟨List.replicate 32 (9 : Byte), false, pkProg, List.replicate 88 (0 : Byte)⟩

/-- A stream account owned by somebody else. -/
def acctStreamForeign : AccountInfo := ⟨List.replicate 32 (9 : Byte), false, pkSend, cfgC.serializeBytes⟩

/-- The sender account, signing. -/
def acctSendSigned : AccountInfo := ⟨pkSend, true, pkProg, []⟩

/-- The receiver account, not signing. -/
def acctRecvUnsigned : AccountInfo := ⟨pkRecv, false, pkProg, []⟩

/-! ### Arithmetic and codec lemmas -/

theorem i64ToU64_lt (i : Int) : i64ToU64 i < 2 ^ 64 := by
  unfold i64ToU64; omega

theorem u64ToI64_i64ToU64 {i : Int} (h1 : -(2 ^ 63) ≤ i) (h2 : i < 2 ^ 63) :
    u64ToI64 (i64ToU64 i) = i := by
  unfold u64ToI64 i64ToU64; split <;> omega

theorem i64ToU64_u64ToI64 {n : Nat} (h : n < 2 ^ 64) :
    i64ToU64 (u64ToI64 n) = n := by
  unfold u64ToI64 i64ToU64; split <;> omega

theorem wrapI64_eq_self {i : Int} (h1 : -(2 ^ 63) ≤ i) (h2 : i < 2 ^ 63) :
    wrapI64 i = i := by
  unfold wrapI64; omega

theorem i64ToU64_of_neg {i : Int} (h1 : -(2 ^ 63) ≤ i) (h2 : i < 0) :
    (i64ToU64 i : Int) = 2 ^ 64 + i := by
  unfold i64ToU64; omega

theorem u64ToI64_range (n : Nat) :
    -(2 ^ 63) ≤ u64ToI64 n ∧ u64ToI64 n < 2 ^ 63 ∨ 2 ^ 64 ≤ n := by
  unfold u64ToI64; split <;> omega

theorem natToLe_length (k n : Nat) : (natToLe k n).length = k := by
  induction k generalizing n with
  | zero => simp [natToLe]
  | succ k ih => simp [natToLe, ih]

theorem leToNat_natToLe (k n : Nat) : leToNat (natToLe k n) = n % 256 ^ k := by
  induction k generalizing n with
  | zero => simp [natToLe, leToNat, Nat.mod_one]
  | succ k ih =>
    simp only [natToLe, leToNat, ih]
    rw [pow_succ, Nat.mul_comm (256 ^ k) 256, Nat.mod_mul]

theorem leToNat_lt (bs : List Byte) : leToNat bs < 256 ^ bs.length := by
  induction bs with
  | nil => simp [leToNat]
  | cons b bs ih =>
    simp only [leToNat, List.length_cons, pow_succ]
    have hb := b.isLt
    calc b.val + 256 * leToNat bs < 256 + 256 * leToNat bs := by omega
    _ ≤ 256 * (leToNat bs + 1) := by ring_nf; omega
    _ ≤ 256 * 256 ^ bs.length := Nat.mul_le_mul_left 256 (by omega)
    _ = 256 ^ bs.length * 256 := by ring

theorem natToLe_leToNat (bs : List Byte) : natToLe bs.length (leToNat bs) = bs := by
  induction bs with
  | nil => simp [natToLe, leToNat]
  | cons b bs ih =>
    simp only [leToNat, List.length_cons, natToLe]
    have h1 : (b.val + 256 * leToNat bs) % 256 = b.val := by
      rw [Nat.add_mul_mod_self_left, Nat.mod_eq_of_lt b.isLt]
    have h2 : (b.val + 256 * leToNat bs) / 256 = leToNat bs := by
      rw [Nat.add_mul_div_left _ _ (by norm_num), Nat.div_eq_of_lt b.isLt, Nat.zero_add]
    rw [h2, ih]
    congr 1
    exact Fin.ext h1

theorem drop_append_add {α : Type} (l₁ l₂ : List α) (k : Nat) :
    (l₁ ++ l₂).drop (l₁.length + k) = l₂.drop k := by
  induction l₁ with
  | nil => simp
  | cons a l ih => simp [List.length_cons, Nat.succ_add, ih]

theorem drop_len_add {α : Type} {l₁ : List α} (l₂ : List α) {n : Nat}
    (h : l₁.length = n) (k : Nat) : (l₁ ++ l₂).drop (n + k) = l₂.drop k := by
  subst h; exact drop_append_add l₁ l₂ k

/-! ### Record codec lemmas -/

theorem tryFromSlice_ok_length {bs : List Byte} {r : StreamConfig}
    (h : StreamConfig.tryFromSlice bs = .ok r) : bs.length = 88 := by
  unfold StreamConfig.tryFromSlice at h
  split at h
  · simp at h
  · split at h
    · simp at h
    · omega

theorem tryFromSlice_ok_fields {bs : List Byte} {r : StreamConfig}
    (h : StreamConfig.tryFromSlice bs = .ok r) :
    r = { sender := bs.take 32
          receiver := (bs.drop 32).take 32
          flow_rate := u64ToI64 (leToNat ((bs.drop 64).take 8))
          static_balance := leToNat ((bs.drop 72).take 8)
          start_time := u64ToI64 (leToNat ((bs.drop 80).take 8)) } := by
  unfold StreamConfig.tryFromSlice at h
  split at h
  · simp at h
  · split at h
    · simp at h
    · simp only [Except.ok.injEq] at h
      exact h.symm

/-- Every record obtained by a successful decode is well formed: 32-byte
identities, fields inside the `i64` / `u64` ranges. -/
theorem tryFromSlice_ok_wf {bs : List Byte} {r : StreamConfig}
    (h : StreamConfig.tryFromSlice bs = .ok r) :
    r.sender.length = 32 ∧ r.receiver.length = 32 ∧
    -(2 ^ 63) ≤ r.flow_rate ∧ r.flow_rate < 2 ^ 63 ∧
    r.static_balance < 2 ^ 64 ∧
    -(2 ^ 63) ≤ r.start_time ∧ r.start_time < 2 ^ 63 := by
  have hl := tryFromSlice_ok_length h
  have hf := tryFromSlice_ok_fields h
  subst hf
  have l64 : ((bs.drop 64).take 8).length = 8 := by
    simp [List.length_take, List.length_drop, hl]
  have l72 : ((bs.drop 72).take 8).length = 8 := by
    simp [List.length_take, List.length_drop, hl]
  have l80 : ((bs.drop 80).take 8).length = 8 := by
    simp [List.length_take, List.length_drop, hl]
  have b64 : leToNat ((bs.drop 64).take 8) < 2 ^ 64 := by
    have := leToNat_lt ((bs.drop 64).take 8); rw [l64] at this; norm_num at this ⊢; omega
  have b72 : leToNat ((bs.drop 72).take 8) < 2 ^ 64 := by
    have := leToNat_lt ((bs.drop 72).take 8); rw [l72] at this; norm_num at this ⊢; omega
  have b80 : leToNat ((bs.drop 80).take 8) < 2 ^ 64 := by
    have := leToNat_lt ((bs.drop 80).take 8); rw [l80] at this; norm_num at this ⊢; omega
  refine ⟨by simp [List.length_take, hl], by simp [List.length_take, List.length_drop, hl],
    ?_, ?_, b72, ?_, ?_⟩
  · rcases u64ToI64_range (leToNat ((bs.drop 64).take 8)) with h' | h'
    · exact h'.1
    · omega
  · rcases u64ToI64_range (leToNat ((bs.drop 64).take 8)) with h' | h'
    · exact h'.2
    · omega
  · rcases u64ToI64_range (leToNat ((bs.drop 80).take 8)) with h' | h'
    · exact h'.1
    · omega
  · rcases u64ToI64_range (leToNat ((bs.drop 80).take 8)) with h' | h'
    · exact h'.2
    · omega

theorem serializeBytes_length (r : StreamConfig) (hs : r.sender.length = 32)
    (hr : r.receiver.length = 32) : r.serializeBytes.length = 88 := by
  simp [StreamConfig.serializeBytes, natToLe_length, hs, hr]

/-- Round trip: a well-formed record decodes back from its own encoding. -/
theorem tryFromSlice_serializeBytes (r : StreamConfig)
    (hs : r.sender.length = 32) (hr : r.receiver.length = 32)
    (hf1 : -(2 ^ 63) ≤ r.flow_rate) (hf2 : r.flow_rate < 2 ^ 63)
    (hb : r.static_balance < 2 ^ 64)
    (ht1 : -(2 ^ 63) ≤ r.start_time) (ht2 : r.start_time < 2 ^ 63) :
    StreamConfig.tryFromSlice r.serializeBytes = .ok r := by
  have hlen := serializeBytes_length r hs hr
  unfold StreamConfig.tryFromSlice
  rw [if_neg (by omega), if_neg (by omega)]
  unfold StreamConfig.serializeBytes at hlen ⊢
  simp only [List.append_assoc] at hlen ⊢
  have takeS : (r.sender ++ (r.receiver ++ (natToLe 8 (i64ToU64 r.flow_rate) ++
      (natToLe 8 r.static_balance ++ natToLe 8 (i64ToU64 r.start_time))))).take 32 = r.sender :=
    List.take_left' hs
  have drop32 : (r.sender ++ (r.receiver ++ (natToLe 8 (i64ToU64 r.flow_rate) ++
      (natToLe 8 r.static_balance ++ natToLe 8 (i64ToU64 r.start_time))))).drop 32 =
      r.receiver ++ (natToLe 8 (i64ToU64 r.flow_rate) ++
        (natToLe 8 r.static_balance ++ natToLe 8 (i64ToU64 r.start_time))) :=
    List.drop_left' hs
  have drop64 : (r.sender ++ (r.receiver ++ (natToLe 8 (i64ToU64 r.flow_rate) ++
      (natToLe 8 r.static_balance ++ natToLe 8 (i64ToU64 r.start_time))))).drop 64 =
      natToLe 8 (i64ToU64 r.flow_rate) ++
        (natToLe 8 r.static_balance ++ natToLe 8 (i64ToU64 r.start_time)) := by
    rw [show (64 : Nat) = 32 + 32 from rfl, drop_len_add _ hs, List.drop_left' hr]
  have drop72 : (r.sender ++ (r.receiver ++ (natToLe 8 (i64ToU64 r.flow_rate) ++
      (natToLe 8 r.static_balance ++ natToLe 8 (i64ToU64 r.start_time))))).drop 72 =
      natToLe 8 r.static_balance ++ natToLe 8 (i64ToU64 r.start_time) := by
    rw [show (72 : Nat) = 32 + 40 from rfl, drop_len_add _ hs,
      show (40 : Nat) = 32 + 8 from rfl, drop_len_add _ hr,
      List.drop_left' (natToLe_length 8 _)]
  have drop80 : (r.sender ++ (r.receiver ++ (natToLe 8 (i64ToU64 r.flow_rate) ++
      (natToLe 8 r.static_balance ++ natToLe 8 (i64ToU64 r.start_time))))).drop 80 =
      natToLe 8 (i64ToU64 r.start_time) := by
    rw [show (80 : Nat) = 32 + 48 from rfl, drop_len_add _ hs,
      show (48 : Nat) = 32 + 16 from rfl, drop_len_add _ hr,
      show (16 : Nat) = 8 + 8 from rfl, drop_len_add _ (natToLe_length 8 _),
      List.drop_left' (natToLe_length 8 _)]
  rw [takeS, drop32, drop64, drop72, drop80]
  rw [List.take_left' hr, List.take_left' (natToLe_length 8 _), List.take_left' (natToLe_length 8 _),
    List.take_of_length_le (le_of_eq (natToLe_length 8 _))]
  rw [leToNat_natToLe, leToNat_natToLe, leToNat_natToLe]
  rw [show ((256 : Nat) ^ 8) = 2 ^ 64 from by norm_num]
  rw [Nat.mod_eq_of_lt (i64ToU64_lt _), Nat.mod_eq_of_lt (i64ToU64_lt _), Nat.mod_eq_of_lt hb]
  rw [u64ToI64_i64ToU64 hf1 hf2, u64ToI64_i64ToU64 ht1 ht2]

/-! ### Behaviour of the two transitions -/

theorem terminateBalance_le (r : StreamConfig) (t : Int) :
    terminateBalance r t ≤ r.static_balance := by
  unfold terminateBalance; split <;> omega

/-- A successful Terminate writes back exactly the decoded record with the
updated balance; the other accounts are untouched. -/
theorem terminate_success_eq
    (pid : Pubkey) (s snd rcv : AccountInfo) (rest : List AccountInfo) (t : Int)
    (r : StreamConfig) (out : Outcome)
    (hdec : StreamConfig.tryFromSlice s.data = .ok r)
    (hout : process_terminate pid (s :: snd :: rcv :: rest) (some t) = out)
    (hok : out.result = .ok ()) :
    out.accounts = { s with
        data := StreamConfig.serializeBytes { r with static_balance := terminateBalance r t } }
      :: snd :: rcv :: rest := by
  subst hout
  obtain ⟨hs32, hr32, hf1, hf2, hb, ht1, ht2⟩ := tryFromSlice_ok_wf hdec
  have hlen := tryFromSlice_ok_length hdec
  have hnil : s.data.drop 88 = [] := List.drop_eq_nil_of_le (by omega)
  have hplen := serializeBytes_length { r with static_balance := terminateBalance r t } hs32 hr32
  have hw : writeToSlice
      ({ r with static_balance := terminateBalance r t } : StreamConfig).serializeBytes s.data =
      (({ r with static_balance := terminateBalance r t } : StreamConfig).serializeBytes, true) := by
    unfold writeToSlice
    rw [hplen, hlen, if_pos (le_refl 88), hnil, List.append_nil]
  simp only [process_terminate, hdec] at hok ⊢
  by_cases how : s.owner ≠ pid
  · rw [if_pos how] at hok
    simp at hok
  · rw [if_neg how] at hok ⊢
    by_cases hauth : ¬ terminateAuthorized r snd rcv
    · rw [if_pos hauth] at hok
      simp at hok
    · rw [if_neg hauth] at hok ⊢
      rw [hw] at hok ⊢
      simp

/-- The record a successful Terminate stores decodes back to the decoded
record with the updated balance. -/
theorem terminate_stored_ok
    {bs : List Byte} {r : StreamConfig} (t : Int)
    (hdec : StreamConfig.tryFromSlice bs = .ok r) :
    StreamConfig.tryFromSlice
        (StreamConfig.serializeBytes { r with static_balance := terminateBalance r t }) =
      .ok { r with static_balance := terminateBalance r t } := by
  obtain ⟨hs32, hr32, hf1, hf2, hb, ht1, ht2⟩ := tryFromSlice_ok_wf hdec
  exact tryFromSlice_serializeBytes _ hs32 hr32 hf1 hf2
    (lt_of_le_of_lt (terminateBalance_le r t) hb) ht1 ht2

/-- Every failing ` process_initialize`, except a failed serialize into a
short buffer, leaves the account list unchanged. -/
theorem process_initialize_error_unchanged
    (pid : Pubkey) (accounts : List AccountInfo) (f : Int) (b : Nat) (clock : Option Int)
    (e : ProgramError)
    (he : ( process_initialize pid accounts f b clock).result = .error e)
    (hne : e ≠ .BorshIoError writeZeroMsg) :
    ( process_initialize pid accounts f b clock).accounts = accounts := by
  rcases accounts with _ | ⟨s, _ | ⟨snd, _ | ⟨rcv, rest⟩⟩⟩
  · rfl
  · rfl
  · rfl
  · cases clock with
    | none =>
      simp only [ process_initialize] at he ⊢
      by_cases h1 : s.owner ≠ pid
      · rw [if_pos h1]
      · rw [if_neg h1] at he ⊢
        by_cases h2 : ¬ snd.is_signer
        · rw [if_pos h2]
        · rw [if_neg h2] at he ⊢
    | some t =>
      simp only [ process_initialize] at he ⊢
      by_cases h1 : s.owner ≠ pid
      · rw [if_pos h1]
      · rw [if_neg h1] at he ⊢
        by_cases h2 : ¬ snd.is_signer
        · rw [if_pos h2]
        · rw [if_neg h2] at he ⊢
          by_cases h3 : (writeToSlice ( StreamConfig.initialize snd.key rcv.key f b t).serializeBytes
              s.data).2 = true
          · rw [if_pos h3] at he
            simp at he
          · rw [if_neg h3] at he
            simp only [Outcome.result, Except.error.injEq] at he
            exact absurd he.symm hne

/-- Every failing `process_terminate`, except a failed serialize into a
short buffer, leaves the account list unchanged. -/
theorem process_terminate_error_unchanged
    (pid : Pubkey) (accounts : List AccountInfo) (clock : Option Int)
    (e : ProgramError)
    (he : (process_terminate pid accounts clock).result = .error e)
    (hne : e ≠ .BorshIoError writeZeroMsg) :
    (process_terminate pid accounts clock).accounts = accounts := by
  rcases accounts with _ | ⟨s, _ | ⟨snd, _ | ⟨rcv, rest⟩⟩⟩
  · rfl
  · rfl
  · rfl
  · cases clock with
    | none =>
      cases hdec : StreamConfig.tryFromSlice s.data with
      | error msg =>
        simp only [process_terminate, hdec] at he ⊢
        by_cases h1 : s.owner ≠ pid
        · rw [if_pos h1]
        · rw [if_neg h1]
      | ok r =>
        simp only [process_terminate, hdec] at he ⊢
        by_cases h1 : s.owner ≠ pid
        · rw [if_pos h1]
        · rw [if_neg h1] at he ⊢
          by_cases h2 : ¬ terminateAuthorized r snd rcv
          · rw [if_pos h2]
          · rw [if_neg h2] at he ⊢
    | some t =>
      cases hdec : StreamConfig.tryFromSlice s.data with
      | error msg =>
        simp only [process_terminate, hdec] at he ⊢
        by_cases h1 : s.owner ≠ pid
        · rw [if_pos h1]
        · rw [if_neg h1]
      | ok r =>
        simp only [process_terminate, hdec] at he ⊢
        by_cases h1 : s.owner ≠ pid
        · rw [if_pos h1]
        · rw [if_neg h1] at he ⊢
          by_cases h2 : ¬ terminateAuthorized r snd rcv
          · rw [if_pos h2]
          · rw [if_neg h2] at he ⊢
            by_cases h3 : (writeToSlice
                ({ r with static_balance := terminateBalance r t } : StreamConfig).serializeBytes
                s.data).2 = true
            · rw [if_pos h3] at he
              simp at he
            · rw [if_neg h3] at he
              simp only [Outcome.result, Except.error.injEq] at he
              exact absurd he.symm hne

/-- Every failing `process_instruction`, except a failed serialize into a
short buffer, leaves the account list unchanged. -/
theorem process_instruction_error_unchanged
    (pid : Pubkey) (accounts : List AccountInfo) (instruction_data : List Byte)
    (clock : Option Int) (e : ProgramError)
    (he : (process_instruction pid accounts instruction_data clock).result = .error e)
    (hne : e ≠ .BorshIoError writeZeroMsg) :
    (process_instruction pid accounts instruction_data clock).accounts = accounts := by
  unfold process_instruction at he ⊢
  cases hi : StreamInstruction.tryFromSlice instruction_data with
  | error msg => rfl
  | ok instr =>
    simp only [hi] at he ⊢
    cases instr with
    | Initialize f b => exact process_initialize_error_unchanged pid accounts f b clock e he hne
    | Terminate => exact process_terminate_error_unchanged pid accounts clock e he hne

/-- A successful Initialize writes the freshly constructed record at the
start of the stream account data (trailing bytes retained); other accounts
untouched. -/
theorem initialize_success_eq
    (pid : Pubkey) (s snd rcv : AccountInfo) (rest : List AccountInfo)
    (f : Int) (b : Nat) (t : Int) (out : Outcome)
    (hout : process_initialize pid (s :: snd :: rcv :: rest) f b (some t) = out)
    (hok : out.result = .ok ())
    (hsk : snd.key.length = 32) (hrk : rcv.key.length = 32) :
    88 ≤ s.data.length ∧
    out.accounts = { s with
        data := ( StreamConfig.initialize snd.key rcv.key f b t).serializeBytes ++ s.data.drop 88 }
      :: snd :: rcv :: rest := by
  subst hout
  have hplen : ( StreamConfig.initialize snd.key rcv.key f b t).serializeBytes.length = 88 :=
    serializeBytes_length _ hsk hrk
  simp only [ process_initialize] at hok ⊢
  by_cases h1 : s.owner ≠ pid
  · rw [if_pos h1] at hok
    simp at hok
  · rw [if_neg h1] at hok ⊢
    by_cases h2 : ¬ snd.is_signer
    · rw [if_pos h2] at hok
      simp at hok
    · rw [if_neg h2] at hok ⊢
      by_cases h3 : (writeToSlice ( StreamConfig.initialize snd.key rcv.key f b t).serializeBytes
          s.data).2 = true
      · have hle : 88 ≤ s.data.length := by
          by_contra hlt
          unfold writeToSlice at h3
          rw [hplen, if_neg (by omega)] at h3
          simp at h3
        have hw1 : (writeToSlice ( StreamConfig.initialize snd.key rcv.key f b t).serializeBytes
            s.data).1 =
            ( StreamConfig.initialize snd.key rcv.key f b t).serializeBytes ++ s.data.drop 88 := by
          unfold writeToSlice
          rw [hplen, if_pos (by omega)]
        rw [if_pos h3, hw1]
        exact ⟨hle, rfl⟩
      · rw [if_neg h3] at hok
        simp at hok

/-! ### The claims -/

/-- Claim C1: for every stored record and clock time, a successful Terminate
applies the balance policy: with `streamed` the amount the code computes
(the product of elapsed time and flow rate interpreted as an unsigned
quantity, spec section 4.2 step 5), the new balance is 0 when
`streamed > static_balance` and `static_balance - streamed` otherwise; and
whenever `streamed >= static_balance` the post-call balance is exactly 0 -
a natural number, never negative and never wrapped. -/
theorem terminate_balance_policy
    (pid : Pubkey) (s snd rcv : AccountInfo) (rest : List AccountInfo) (t : Int)
    (r : StreamConfig) (out : Outcome)
    (hdec : StreamConfig.tryFromSlice s.data = .ok r)
    (hout : process_terminate pid (s :: snd :: rcv :: rest) (some t) = out)
    (hok : out.result = .ok ()) :
    ∃ r' : StreamConfig,
      out.accounts = { s with data := StreamConfig.serializeBytes r' } :: snd :: rcv :: rest ∧
      StreamConfig.tryFromSlice (StreamConfig.serializeBytes r') = .ok r' ∧
      r'.static_balance =
        (if streamedAmount r t > r.static_balance then 0
         else r.static_balance - streamedAmount r t) ∧
      (streamedAmount r t ≥ r.static_balance → r'.static_balance = 0) := by
  refine ⟨{ r with static_balance := terminateBalance r t },
    terminate_success_eq pid s snd rcv rest t r out hdec hout hok,
    terminate_stored_ok t hdec, rfl, fun h => ?_⟩
  show terminateBalance r t = 0
  unfold terminateBalance
  split
  · rfl
  · omega

/-- Witness for C1: Scenario C, Terminate at time 50 on the record with
flow rate 1, balance 100, start time 0. -/
theorem terminate_balance_policy_witness :
    ∃ r' : StreamConfig,
      (process_terminate pkProg [acctStreamC, acctSendSigned, acctRecvUnsigned]
          (some 50)).accounts =
        { acctStreamC with data := StreamConfig.serializeBytes r' }
          :: acctSendSigned :: acctRecvUnsigned :: [] ∧
      StreamConfig.tryFromSlice (StreamConfig.serializeBytes r') = .ok r' ∧
      r'.static_balance =
        (if streamedAmount cfgC 50 > cfgC.static_balance then 0
         else cfgC.static_balance - streamedAmount cfgC 50) ∧
      (streamedAmount cfgC 50 ≥ cfgC.static_balance → r'.static_balance = 0) :=
  terminate_balance_policy pkProg acctStreamC acctSendSigned acctRecvUnsigned [] 50 cfgC _
    (by decide) rfl (by decide)

/-- Claim C4: Terminate is monotonic on the balance: under every signer
configuration and clock for which it succeeds, the stored post-call balance
is at most the pre-call balance. -/
theorem terminate_monotonic
    (pid : Pubkey) (s snd rcv : AccountInfo) (rest : List AccountInfo) (t : Int)
    (r : StreamConfig) (out : Outcome)
    (hdec : StreamConfig.tryFromSlice s.data = .ok r)
    (hout : process_terminate pid (s :: snd :: rcv :: rest) (some t) = out)
    (hok : out.result = .ok ()) :
    ∃ r' : StreamConfig,
      out.accounts = { s with data := StreamConfig.serializeBytes r' } :: snd :: rcv :: rest ∧
      StreamConfig.tryFromSlice (StreamConfig.serializeBytes r') = .ok r' ∧
      r'.static_balance ≤ r.static_balance :=
  ⟨{ r with static_balance := terminateBalance r t },
    terminate_success_eq pid s snd rcv rest t r out hdec hout hok,
    terminate_stored_ok t hdec, terminateBalance_le r t⟩

/-- Witness for C4: Scenario C, post-call balance 50 is at most 100. -/
theorem terminate_monotonic_witness :
    ∃ r' : StreamConfig,
      (process_terminate pkProg [acctStreamC, acctSendSigned, acctRecvUnsigned]
          (some 50)).accounts =
        { acctStreamC with data := StreamConfig.serializeBytes r' }
          :: acctSendSigned :: acctRecvUnsigned :: [] ∧
      StreamConfig.tryFromSlice (StreamConfig.serializeBytes r') = .ok r' ∧
      r'.static_balance ≤ cfgC.static_balance :=
  terminate_monotonic pkProg acctStreamC acctSendSigned acctRecvUnsigned [] 50 cfgC _
    (by decide) rfl (by decide)

/-- Claim C9: a successful Terminate leaves `start_time` (and `sender`,
`receiver`, `flow_rate`) unchanged in the stored record; only
`static_balance` may differ. -/
theorem terminate_frame
    (pid : Pubkey) (s snd rcv : AccountInfo) (rest : List AccountInfo) (t : Int)
    (r : StreamConfig) (out : Outcome)
    (hdec : StreamConfig.tryFromSlice s.data = .ok r)
    (hout : process_terminate pid (s :: snd :: rcv :: rest) (some t) = out)
    (hok : out.result = .ok ()) :
    ∃ r' : StreamConfig,
      out.accounts = { s with data := StreamConfig.serializeBytes r' } :: snd :: rcv :: rest ∧
      StreamConfig.tryFromSlice (StreamConfig.serializeBytes r') = .ok r' ∧
      r'.start_time = r.start_time ∧ r'.sender = r.sender ∧
      r'.receiver = r.receiver ∧ r'.flow_rate = r.flow_rate :=
  ⟨{ r with static_balance := terminateBalance r t },
    terminate_success_eq pid s snd rcv rest t r out hdec hout hok,
    terminate_stored_ok t hdec, rfl, rfl, rfl, rfl⟩

/-- Witness for C9: Scenario C, the stored record keeps start time 0,
the original parties and flow rate 1. -/
theorem terminate_frame_witness :
    ∃ r' : StreamConfig,
      (process_terminate pkProg [acctStreamC, acctSendSigned, acctRecvUnsigned]
          (some 50)).accounts =
        { acctStreamC with data := StreamConfig.serializeBytes r' }
          :: acctSendSigned :: acctRecvUnsigned :: [] ∧
      StreamConfig.tryFromSlice (StreamConfig.serializeBytes r') = .ok r' ∧
      r'.start_time = cfgC.start_time ∧ r'.sender = cfgC.sender ∧
      r'.receiver = cfgC.receiver ∧ r'.flow_rate = cfgC.flow_rate :=
  terminate_frame pkProg acctStreamC acctSendSigned acctRecvUnsigned [] 50 cfgC _
    (by decide) rfl (by decide)

/-- Claim C2: given that the stream account is owned by the program and its
record decodes, Terminate fails with MissingSignature exactly when neither
(the sender account signs and matches the stored sender) nor (the receiver
account signs and matches the stored receiver); and on that failure the
account list is untouched - the failure happens before any write. -/
theorem terminate_auth_iff
    (pid : Pubkey) (s snd rcv : AccountInfo) (rest : List AccountInfo) (clock : Option Int)
    (r : StreamConfig)
    (howner : s.owner = pid)
    (hdec : StreamConfig.tryFromSlice s.data = .ok r) :
    ((process_terminate pid (s :: snd :: rcv :: rest) clock).result =
        .error .MissingRequiredSignature ↔
      ¬ ((snd.is_signer ∧ r.sender = snd.key) ∨ (rcv.is_signer ∧ r.receiver = rcv.key))) ∧
    ((process_terminate pid (s :: snd :: rcv :: rest) clock).result =
        .error .MissingRequiredSignature →
      (process_terminate pid (s :: snd :: rcv :: rest) clock).accounts =
        s :: snd :: rcv :: rest) := by
  have hno : ¬ s.owner ≠ pid := fun hc => hc howner
  have hchar : (process_terminate pid (s :: snd :: rcv :: rest) clock).result =
      .error .MissingRequiredSignature ↔ ¬ terminateAuthorized r snd rcv := by
    cases clock with
    | none =>
      simp only [process_terminate, hdec]
      rw [if_neg hno]
      by_cases hauth : ¬ terminateAuthorized r snd rcv
      · rw [if_pos hauth]
        simp [hauth]
      · rw [if_neg hauth]
        rw [not_not] at hauth
        simp [hauth]
    | some t =>
      simp only [process_terminate, hdec]
      rw [if_neg hno]
      by_cases hauth : ¬ terminateAuthorized r snd rcv
      · rw [if_pos hauth]
        simp [hauth]
      · rw [if_neg hauth]
        rw [not_not] at hauth
        by_cases h3 : (writeToSlice
            ({ r with static_balance := terminateBalance r t } : StreamConfig).serializeBytes
            s.data).2 = true
        · rw [if_pos h3]
          simp [hauth]
        · rw [if_neg h3]
          simp [hauth, writeZeroMsg]
  refine ⟨hchar, fun hres => ?_⟩
  exact process_terminate_error_unchanged pid (s :: snd :: rcv :: rest) clock
    .MissingRequiredSignature hres (by decide)

/-- Witness for C2: record of Scenario C, sender signs and matches, so the
call does not fail with MissingSignature; and the unchanged-on-failure
implication holds. -/
theorem terminate_auth_iff_witness :
    ((process_terminate pkProg [acctStreamC, acctSendSigned, acctRecvUnsigned]
        (some 50)).result = .error .MissingRequiredSignature ↔
      ¬ ((acctSendSigned.is_signer ∧ cfgC.sender = acctSendSigned.key) ∨
         (acctRecvUnsigned.is_signer ∧ cfgC.receiver = acctRecvUnsigned.key))) ∧
    ((process_terminate pkProg [acctStreamC, acctSendSigned, acctRecvUnsigned]
        (some 50)).result = .error .MissingRequiredSignature →
      (process_terminate pkProg [acctStreamC, acctSendSigned, acctRecvUnsigned]
        (some 50)).accounts = [acctStreamC, acctSendSigned, acctRecvUnsigned]) :=
  terminate_auth_iff pkProg acctStreamC acctSendSigned acctRecvUnsigned [] (some 50) cfgC
    (by decide) (by decide)

/-- Claim C8: for both operations, a stream account not owned by the program
makes the call fail with IncorrectOwner with the account list byte-for-byte
unchanged, regardless of every other input - the owner check runs before
any other precondition of the transition. -/
theorem owner_check_first
    (pid : Pubkey) (s snd rcv : AccountInfo) (rest : List AccountInfo)
    (flow_rate : Int) (initial_balance : Nat) (clock : Option Int)
    (hown : s.owner ≠ pid) :
    process_initialize pid (s :: snd :: rcv :: rest) flow_rate initial_balance clock =
      ⟨.error .IncorrectProgramId, s :: snd :: rcv :: rest⟩ ∧
    process_terminate pid (s :: snd :: rcv :: rest) clock =
      ⟨.error .IncorrectProgramId, s :: snd :: rcv :: rest⟩ := by
  constructor
  · simp only [ process_initialize]
    rw [if_pos hown]
  · simp only [process_terminate]
    rw [if_pos hown]

/-- Witness for C8: a stream account owned by a different key, with
otherwise valid inputs. -/
theorem owner_check_first_witness :
    process_initialize pkProg [acctStreamForeign, acctSendSigned, acctRecvUnsigned]
        100 1000 (some 1000) =
      ⟨.error .IncorrectProgramId, [acctStreamForeign, acctSendSigned, acctRecvUnsigned]⟩ ∧
    process_terminate pkProg [acctStreamForeign, acctSendSigned, acctRecvUnsigned]
        (some 1000) =
      ⟨.error .IncorrectProgramId, [acctStreamForeign, acctSendSigned, acctRecvUnsigned]⟩ :=
  owner_check_first pkProg acctStreamForeign acctSendSigned acctRecvUnsigned []
    100 1000 (some 1000) (by decide)

/-- Claim C6: when the signed product of elapsed time and flow rate is
negative (and both it and the elapsed time fit an i64), the `as u64` cast
wraps modulo 2 ^ 64: the deducted amount is 2 ^ 64 + product; hence for
every record with balance below 2 ^ 63 a successful Terminate stores
balance 0 instead of deducting nothing. -/
theorem terminate_negative_wrap
    (pid : Pubkey) (s snd rcv : AccountInfo) (rest : List AccountInfo) (t : Int)
    (r : StreamConfig) (out : Outcome)
    (hdec : StreamConfig.tryFromSlice s.data = .ok r)
    (hout : process_terminate pid (s :: snd :: rcv :: rest) (some t) = out)
    (hok : out.result = .ok ())
    (he1 : -(2 ^ 63) ≤ t - r.start_time) (he2 : t - r.start_time < 2 ^ 63)
    (hp1 : -(2 ^ 63) ≤ (t - r.start_time) * r.flow_rate)
    (hp2 : (t - r.start_time) * r.flow_rate < 0) :
    (streamedAmount r t : Int) = 2 ^ 64 + (t - r.start_time) * r.flow_rate ∧
    (r.static_balance < 2 ^ 63 →
      out.accounts = { s with
          data := StreamConfig.serializeBytes { r with static_balance := 0 } }
        :: snd :: rcv :: rest) := by
  have hs : (streamedAmount r t : Int) = 2 ^ 64 + (t - r.start_time) * r.flow_rate := by
    unfold streamedAmount
    rw [wrapI64_eq_self he1 he2, wrapI64_eq_self hp1 (by omega),
      i64ToU64_of_neg hp1 hp2]
  refine ⟨hs, fun hbal => ?_⟩
  have hgt : r.static_balance < streamedAmount r t := by
    revert hs hp1 hp2
    generalize (t - r.start_time) * r.flow_rate = p
    intro hs hp1 hp2
    omega
  have hterm : terminateBalance r t = 0 := by
    unfold terminateBalance
    rw [if_pos hgt]
  have hacc := terminate_success_eq pid s snd rcv rest t r out hdec hout hok
  rw [hterm] at hacc
  exact hacc

/-- Witness for C6: flow rate -3, Terminate at time 10 after start time 0:
the product -30 wraps to 2 ^ 64 - 30 and the balance 100 clamps to 0. -/
theorem terminate_negative_wrap_witness :
    (streamedAmount cfgNeg 10 : Int) =
      2 ^ 64 + (10 - cfgNeg.start_time) * cfgNeg.flow_rate ∧
    (cfgNeg.static_balance < 2 ^ 63 →
      (process_terminate pkProg [acctStreamNeg, acctSendSigned, acctRecvUnsigned]
          (some 10)).accounts =
        { acctStreamNeg with
            data := StreamConfig.serializeBytes { cfgNeg with static_balance := 0 } }
          :: acctSendSigned :: acctRecvUnsigned :: []) :=
  terminate_negative_wrap pkProg acctStreamNeg acctSendSigned acctRecvUnsigned [] 10 cfgNeg _
    (by decide) rfl (by decide) (by decide) (by decide) (by decide) (by decide)

/-- Claim C3: after a successful Initialize the record stored at the start
of the stream account satisfies: sender is the sender account key, receiver
the receiver account key, flow rate and balance are the instruction values
and start time is the clock value at the call. -/
theorem initialize_post
    (pid : Pubkey) (s snd rcv : AccountInfo) (rest : List AccountInfo)
    (flow_rate : Int) (initial_balance : Nat) (t : Int) (out : Outcome)
    (hout : process_initialize pid (s :: snd :: rcv :: rest) flow_rate initial_balance
      (some t) = out)
    (hok : out.result = .ok ())
    (hsk : snd.key.length = 32) (hrk : rcv.key.length = 32)
    (hf1 : -(2 ^ 63) ≤ flow_rate) (hf2 : flow_rate < 2 ^ 63)
    (hb : initial_balance < 2 ^ 64)
    (ht1 : -(2 ^ 63) ≤ t) (ht2 : t < 2 ^ 63) :
    ∃ r : StreamConfig,
      out.accounts = { s with data := StreamConfig.serializeBytes r ++ s.data.drop 88 }
        :: snd :: rcv :: rest ∧
      StreamConfig.tryFromSlice ((StreamConfig.serializeBytes r ++ s.data.drop 88).take 88) =
        .ok r ∧
      r.sender = snd.key ∧ r.receiver = rcv.key ∧ r.flow_rate = flow_rate ∧
      r.static_balance = initial_balance ∧ r.start_time = t := by
  obtain ⟨hle, hacc⟩ := initialize_success_eq pid s snd rcv rest flow_rate initial_balance t out
    hout hok hsk hrk
  refine ⟨ StreamConfig.initialize snd.key rcv.key flow_rate initial_balance t, hacc, ?_,
    rfl, rfl, rfl, rfl, rfl⟩
  rw [List.take_left' (serializeBytes_length _ hsk hrk)]
  exact tryFromSlice_serializeBytes _ hsk hrk hf1 hf2 hb ht1 ht2

/-- Witness for C3: Scenario A, Initialize with flow rate 100 and balance
1000 at time 1000 over a zeroed 88-byte slot. -/
theorem initialize_post_witness :
    ∃ r : StreamConfig,
      ( process_initialize pkProg [acctStreamZero, acctSendSigned, acctRecvUnsigned]
          100 1000 (some 1000)).accounts =
        { acctStreamZero with
            data := StreamConfig.serializeBytes r ++ acctStreamZero.data.drop 88 }
          :: acctSendSigned :: acctRecvUnsigned :: [] ∧
      StreamConfig.tryFromSlice
          ((StreamConfig.serializeBytes r ++ acctStreamZero.data.drop 88).take 88) = .ok r ∧
      r.sender = acctSendSigned.key ∧ r.receiver = acctRecvUnsigned.key ∧
      r.flow_rate = 100 ∧ r.static_balance = 1000 ∧ r.start_time = 1000 :=
  initialize_post pkProg acctStreamZero acctSendSigned acctRecvUnsigned [] 100 1000 1000 _
    rfl (by decide) (by decide) (by decide) (by decide) (by decide) (by decide)
    (by decide) (by decide)

/-- Claim C7: every invocation of Initialize or Terminate that fails with
one of the spec failure kinds (IncorrectOwner, MissingSignature,
MalformedInstruction, MalformedRecord, ClockUnavailable) leaves the account
list - in particular the stream account bytes - unchanged: those checks all
run before the terminal write. -/
theorem error_atomicity
    (pid : Pubkey) (accounts : List AccountInfo) (instruction_data : List Byte)
    (clock : Option Int) (e : ProgramError) (out : Outcome)
    (hout : process_instruction pid accounts instruction_data clock = out)
    (he : out.result = .error e)
    (hkind : e = .IncorrectProgramId ∨ e = .MissingRequiredSignature ∨
      e = .BorshIoError eofMsg ∨ e = .BorshIoError leftoverMsg ∨
      e = .BorshIoError tagMsg ∨ e = .UnsupportedSysvar) :
    out.accounts = accounts := by
  subst hout
  refine process_instruction_error_unchanged pid accounts instruction_data clock e he ?_
  rcases hkind with h | h | h | h | h | h <;> subst h <;> decide

/-- Witness for C7: an unknown instruction tag fails the decode and leaves
the three accounts untouched. -/
theorem error_atomicity_witness :
    (process_instruction pkProg [acctStreamC, acctSendSigned, acctRecvUnsigned]
        [(2 : Byte)] (some 50)).accounts =
      [acctStreamC, acctSendSigned, acctRecvUnsigned] :=
  error_atomicity pkProg [acctStreamC, acctSendSigned, acctRecvUnsigned] [(2 : Byte)]
    (some 50) (.BorshIoError tagMsg) _ rfl (by decide) (by decide)

/-- Counterexample to claim C5 as stated: a never-initialized slot of the
record size (88 zero bytes) does NOT fail the decode - it decodes to the
all-zero record - and Terminate against it fails with MissingSignature,
not with a MalformedRecord decode error. -/
theorem terminate_zero_slot_counterexample :
    StreamConfig.tryFromSlice (List.replicate 88 (0 : Byte)) =
      .ok ⟨List.replicate 32 (0 : Byte), List.replicate 32 (0 : Byte), 0, 0, 0⟩ ∧
    (process_terminate pkProg [acctStreamZero, acctSendSigned, acctRecvUnsigned]
        (some 50)).result = .error .MissingRequiredSignature := by
  decide

/-- Claim C5 amended: Terminate against a never-initialized all-zero slot
of exactly the record size does not fail with MalformedRecord: the zero
buffer decodes to the all-zero record and the call proceeds to the
signature check, failing with MissingSignature whenever no signer key is
the all-zero identity; decoding a stored buffer fails exactly when its
length differs from 88. -/
theorem terminate_uninitialized_slot
    (pid : Pubkey) (s snd rcv : AccountInfo) (rest : List AccountInfo) (clock : Option Int)
    (hown : s.owner = pid)
    (hdata : s.data = List.replicate 88 (0 : Byte))
    (hsk : snd.key ≠ List.replicate 32 (0 : Byte))
    (hrk : rcv.key ≠ List.replicate 32 (0 : Byte)) :
    (process_terminate pid (s :: snd :: rcv :: rest) clock).result =
      .error .MissingRequiredSignature ∧
    ∀ bs : List Byte, (∃ r, StreamConfig.tryFromSlice bs = .ok r) ↔ bs.length = 88 := by
  have hno : ¬ s.owner ≠ pid := fun hc => hc hown
  have hdec0 : StreamConfig.tryFromSlice (List.replicate 88 (0 : Byte)) =
      .ok ⟨List.replicate 32 (0 : Byte), List.replicate 32 (0 : Byte), 0, 0, 0⟩ := by decide
  have hauth : ¬ terminateAuthorized
      ⟨List.replicate 32 (0 : Byte), List.replicate 32 (0 : Byte), 0, 0, 0⟩ snd rcv := by
    intro hc
    unfold terminateAuthorized at hc
    rcases hc with ⟨_, h⟩ | ⟨_, h⟩
    · exact hsk h.symm
    · exact hrk h.symm
  constructor
  · simp only [process_terminate, hdata, hdec0]
    rw [if_neg hno, if_pos hauth]
  · intro bs
    constructor
    · rintro ⟨r, hr⟩
      exact tryFromSlice_ok_length hr
    · intro hl
      refine ⟨⟨bs.take 32, (bs.drop 32).take 32,
        u64ToI64 (leToNat ((bs.drop 64).take 8)),
        leToNat ((bs.drop 72).take 8),
        u64ToI64 (leToNat ((bs.drop 80).take 8))⟩, ?_⟩
      unfold StreamConfig.tryFromSlice
      rw [if_neg (by omega), if_neg (by omega)]

/-- Witness for the amended C5: the zeroed slot with non-zero signer keys
fails with MissingSignature. -/
theorem terminate_uninitialized_slot_witness :
    (process_terminate pkProg [acctStreamZero, acctSendSigned, acctRecvUnsigned]
        (some 99)).result = .error .MissingRequiredSignature ∧
    ∀ bs : List Byte, (∃ r, StreamConfig.tryFromSlice bs = .ok r) ↔ bs.length = 88 :=
  terminate_uninitialized_slot pkProg acctStreamZero acctSendSigned acctRecvUnsigned []
    (some 99) rfl rfl (by decide) (by decide)

/-- Claim C10: tag 0 followed by the 8-byte little-endian i64 flow rate and
the 8-byte little-endian u64 initial balance decodes to Initialize; the
single byte tag 1 decodes to Terminate; an empty input, an unknown tag, or
a truncated tag-0 payload makes the call fail with a decode error
(MalformedInstruction) before any account is touched. -/
theorem instruction_wire_format
    (f : Int) (b : Nat) (pid : Pubkey) (accounts : List AccountInfo) (clock : Option Int)
    (bs : List Byte)
    (hf1 : -(2 ^ 63) ≤ f) (hf2 : f < 2 ^ 63) (hb : b < 2 ^ 64)
    (hbad : bs = [] ∨ (∃ tag rest, bs = tag :: rest ∧ tag.val ≠ 0 ∧ tag.val ≠ 1) ∨
      (∃ rest, bs = (0 : Byte) :: rest ∧ rest.length < 16)) :
    StreamInstruction.tryFromSlice ((0 : Byte) :: (natToLe 8 (i64ToU64 f) ++ natToLe 8 b)) =
      .ok (.Initialize f b) ∧
    StreamInstruction.tryFromSlice [(1 : Byte)] = .ok .Terminate ∧
    ∃ msg, (msg = eofMsg ∨ msg = tagMsg) ∧
      process_instruction pid accounts bs clock =
        ⟨.error (.BorshIoError msg), accounts⟩ := by
  refine ⟨?_, by decide, ?_⟩
  · simp only [StreamInstruction.tryFromSlice]
    rw [if_pos (by decide)]
    rw [if_neg (by simp [natToLe_length]), if_neg (by simp [natToLe_length])]
    rw [List.take_left' (natToLe_length 8 _), List.drop_left' (natToLe_length 8 _)]
    rw [leToNat_natToLe, leToNat_natToLe,
      show ((256 : Nat) ^ 8) = 2 ^ 64 from by norm_num,
      Nat.mod_eq_of_lt (i64ToU64_lt _), Nat.mod_eq_of_lt hb,
      u64ToI64_i64ToU64 hf1 hf2]
  · rcases hbad with h | ⟨tag, rest, h, h0, h1⟩ | ⟨rest, h, hlen⟩
    · subst h
      exact ⟨eofMsg, Or.inl rfl, rfl⟩
    · subst h
      have hdec : StreamInstruction.tryFromSlice (tag :: rest) = .error tagMsg := by
        simp only [StreamInstruction.tryFromSlice]
        rw [if_neg h0, if_neg h1]
      refine ⟨tagMsg, Or.inr rfl, ?_⟩
      simp only [process_instruction, hdec]
    · subst h
      have hdec : StreamInstruction.tryFromSlice ((0 : Byte) :: rest) = .error eofMsg := by
        simp only [StreamInstruction.tryFromSlice]
        rw [if_pos (by decide), if_pos hlen]
      refine ⟨eofMsg, Or.inl rfl, ?_⟩
      simp only [process_instruction, hdec]

/-- Witness for C10: flow rate -3, balance 7; the bad input is the unknown
tag 2. -/
theorem instruction_wire_format_witness :
    StreamInstruction.tryFromSlice ((0 : Byte) :: (natToLe 8 (i64ToU64 (-3)) ++ natToLe 8 7)) =
      .ok (.Initialize (-3) 7) ∧
    StreamInstruction.tryFromSlice [(1 : Byte)] = .ok .Terminate ∧
    ∃ msg, (msg = eofMsg ∨ msg = tagMsg) ∧
      process_instruction pkProg [acctStreamC, acctSendSigned, acctRecvUnsigned] [(2 : Byte)]
          (some 0) =
        ⟨.error (.BorshIoError msg), [acctStreamC, acctSendSigned, acctRecvUnsigned]⟩ :=
  instruction_wire_format (-3) 7 pkProg [acctStreamC, acctSendSigned, acctRecvUnsigned]
    (some 0) [(2 : Byte)] (by decide) (by decide) (by decide)
    (Or.inr (Or.inl ⟨2, [], rfl, by decide, by decide⟩))

end ChronoStream
